import Mathlib

/-!
Verification of the ClickHouse native-protocol session core
(src/clickhouse/client.cpp) against its specification.

The wire codec is abstracted to whole fields: a stream is a list of tokens,
one per WireFormat read/write call (varuint64, fixed-width scalar, or
length-prefixed string).  Packet bodies, revision gates, the event-sink
delivery, exception chains and the send/receive dialogs are embedded as
executable functions mirroring the source statement by statement.
-/

namespace RClickhouse

/-! ## Constants from client.cpp -/

def DBMS_VERSION_MAJOR : Nat := 1

def DBMS_VERSION_MINOR : Nat := 1

/-- The client revision constant from client.cpp line 17. -/
def REVISION : Nat := 54126

def DBMS_MIN_REVISION_WITH_TEMPORARY_TABLES : Nat := 50264

def DBMS_MIN_REVISION_WITH_TOTAL_ROWS_IN_PROGRESS : Nat := 51554

def DBMS_MIN_REVISION_WITH_BLOCK_INFO : Nat := 51903

def DBMS_MIN_REVISION_WITH_CLIENT_INFO : Nat := 54032

def DBMS_MIN_REVISION_WITH_SERVER_TIMEZONE : Nat := 54058

def DBMS_MIN_REVISION_WITH_QUOTA_KEY_IN_CLIENT_INFO : Nat := 54060

/- Modelled from the spec: client-to-server packet codes (protocol.h is not
under src/); section 4.E gives Hello=0, Query=1, Data=2, Ping=4. -/
namespace ClientCodes

def Hello : Nat := 0

def Query : Nat := 1

def Data : Nat := 2

def Ping : Nat := 4

end ClientCodes

/- Modelled from the spec: server-to-client packet codes (protocol.h is not
under src/); section 4.E gives Hello=0, Data=1, Exception=2, Progress=3,
Pong=4, EndOfStream=5, ProfileInfo=6. -/
namespace ServerCodes

def Hello : Nat := 0

def Data : Nat := 1

def Exception : Nat := 2

def Progress : Nat := 3

def Pong : Nat := 4

def EndOfStream : Nat := 5

def ProfileInfo : Nat := 6

end ServerCodes

/-- Modelled from the spec: Stages.Complete = 2 (protocol.h is not under
src/). -/
def Stages.Complete : Nat := 2

/-- Modelled from the spec: CompressionState.Disable = 0 (protocol.h is not
under src/). -/
def CompressionState.Disable : Nat := 0

/-! ## The wire, at field granularity

Modelled from the spec: wire_format.h is not under src/, so the codec of
section 4.B is abstracted to whole fields.  One token stands for one
WireFormat call: ReadUInt64/WriteUInt64 move a varuint64, ReadFixed/WriteFixed
a fixed-width little-endian scalar, ReadString/WriteString a length-prefixed
string.  A read returns none exactly when the stream is exhausted or the
bytes do not form the requested field, matching the boolean failure of the
WireFormat readers. -/

inductive Tok
  | varu (v : Nat)
  | fix (v : Nat)
  | str (s : String)
  deriving DecidableEq

abbrev Stream := List Tok

def readVar : Stream → Option (Nat × Stream)
  | Tok.varu v :: rest => some (v, rest)
  | _ => none

def readFix : Stream → Option (Nat × Stream)
  | Tok.fix v :: rest => some (v, rest)
  | _ => none

def readStr : Stream → Option (String × Stream)
  | Tok.str s :: rest => some (s, rest)
  | _ => none

/-- Output items written through WireFormat, plus the explicit Flush calls on
the buffered output. -/
inductive OutItem
  | varu (v : Nat)
  | fix (v : Nat)
  | str (s : String)
  | flush
  deriving DecidableEq

def writeVaru (o : List OutItem) (v : Nat) : List OutItem := o ++ [OutItem.varu v]

def writeFix (o : List OutItem) (v : Nat) : List OutItem := o ++ [OutItem.fix v]

def writeStr (o : List OutItem) (s : String) : List OutItem := o ++ [OutItem.str s]

def flushOut (o : List OutItem) : List OutItem := o ++ [OutItem.flush]

/-! ## Data model -/

/-- Progress packet body (rows, bytes, total_rows). -/
structure Progress where
  rows : Nat
  bytes : Nat
  total_rows : Nat
  deriving DecidableEq

/-- ProfileInfo packet body. -/
structure Profile where
  rows : Nat
  blocks : Nat
  bytes : Nat
  applied_limit : Nat
  rows_before_limit : Nat
  calculated_rows_before_limit : Nat
  deriving DecidableEq

/-- One frame of a server exception chain. -/
structure ExcFrame where
  code : Nat
  name : String
  display_text : String
  stack_trace : String
  deriving DecidableEq

/-- A received block as ReceiveData builds it: AppendColumn order of
(name, type descriptor) pairs, and the declared row count. -/
structure RBlock where
  columns : List (String × String)
  rows : Nat
  deriving DecidableEq

/-- The QueryEvents callbacks (client.h event sink). -/
inductive Event
  | onData (b : RBlock)
  | onProgress (p : Progress)
  | onProfile (p : Profile)
  | onServerException (chain : List ExcFrame)
  | onFinish
  deriving DecidableEq

/-- A thrown C++ exception escaping the receive path. -/
inductive Err
  | unsupportedColumnType (ty : String)
  | loadFailure
  | unimplementedPacket (code : Nat)
  | serverException (chain : List ExcFrame)
  deriving DecidableEq

/-- Result of a receive routine: the returned bool together with the events
delivered to the sink and the remaining stream, or a thrown exception. -/
inductive RRes
  | ret (b : Bool) (evs : List Event) (rest : Stream)
  | thrown (e : Err) (evs : List Event) (rest : Stream)
  deriving DecidableEq

def RRes.events : RRes → List Event
  | .ret _ evs _ => evs
  | .thrown _ evs _ => evs

/-! ## Column registry

Modelled from the spec: the column factory CreateColumnByType
(columns/factory, not under src/).  Section 4.C fixes the closed descriptor
set, case-sensitive exact match, with FixedString(k) parsing k from the
descriptor. -/

inductive BaseType
  | uint8
  | uint16
  | uint32
  | uint64
  | int8
  | int16
  | int32
  | int64
  | float32
  | float64
  | string
  | date
  | datetime
  deriving DecidableEq

def baseName : BaseType → String
  | .uint8 => "UInt8"
  | .uint16 => "UInt16"
  | .uint32 => "UInt32"
  | .uint64 => "UInt64"
  | .int8 => "Int8"
  | .int16 => "Int16"
  | .int32 => "Int32"
  | .int64 => "Int64"
  | .float32 => "Float32"
  | .float64 => "Float64"
  | .string => "String"
  | .date => "Date"
  | .datetime => "DateTime"

inductive ColType
  | base (b : BaseType)
  | fixedString (k : Nat)
  deriving DecidableEq

def digitVal? (c : Char) : Option Nat :=
  if c = '0' then some 0
  else if c = '1' then some 1
  else if c = '2' then some 2
  else if c = '3' then some 3
  else if c = '4' then some 4
  else if c = '5' then some 5
  else if c = '6' then some 6
  else if c = '7' then some 7
  else if c = '8' then some 8
  else if c = '9' then some 9
  else none

def parseNatFrom : List Char → Nat → Option Nat
  | [], acc => some acc
  | c :: cs, acc =>
    match digitVal? c with
    | some d => parseNatFrom cs (acc * 10 + d)
    | none => none

/-- A nonempty all-digit character list read as a decimal number. -/
def parseNatDigits : List Char → Option Nat
  | [] => none
  | c :: cs => parseNatFrom (c :: cs) 0

/-- Modelled from the spec: CreateColumnByType maps a type descriptor string
to a fresh column, none for descriptors outside the closed set of section
4.C; FixedString(k) parses k from between the parentheses. -/
def CreateColumnByType (t : String) : Option ColType :=
  if t = "UInt8" then some (.base .uint8)
  else if t = "UInt16" then some (.base .uint16)
  else if t = "UInt32" then some (.base .uint32)
  else if t = "UInt64" then some (.base .uint64)
  else if t = "Int8" then some (.base .int8)
  else if t = "Int16" then some (.base .int16)
  else if t = "Int32" then some (.base .int32)
  else if t = "Int64" then some (.base .int64)
  else if t = "Float32" then some (.base .float32)
  else if t = "Float64" then some (.base .float64)
  else if t = "String" then some (.base .string)
  else if t = "Date" then some (.base .date)
  else if t = "DateTime" then some (.base .datetime)
  else
    match t.toList with
    | 'F' :: 'i' :: 'x' :: 'e' :: 'd' :: 'S' :: 't' :: 'r' :: 'i' :: 'n' ::
        'g' :: '(' :: rest =>
      if rest.getLast? = some ')' then
        match parseNatDigits rest.dropLast with
        | some k => some (.fixedString k)
        | none => none
      else none
    | _ => none

/-- Whether a column type loads length-prefixed or raw string payloads (String
and FixedString) rather than fixed-width scalars. -/
def ColType.usesStr : ColType → Bool
  | .base .string => true
  | .fixedString _ => true
  | _ => false

def colTokOk (t : ColType) : Tok → Bool
  | Tok.str _ => t.usesStr
  | Tok.fix _ => !t.usesStr
  | Tok.varu _ => false

/-- Column Load: consume n per-row payload fields of the column kind; none on
a truncated or mismatched stream. -/
def loadColumn (t : ColType) : Nat → Stream → Option Stream
  | 0, s => some s
  | n + 1, tok :: rest => if colTokOk t tok then loadColumn t n rest else none
  | _ + 1, [] => none

/-! ## ReceiveData (client.cpp lines 312 to 384) -/

inductive ColsRes
  | ok (cols : List (String × String)) (rest : Stream)
  | fail (rest : Stream)
  | thrown (e : Err) (rest : Stream)
  deriving DecidableEq

/-- The column loop of ReceiveData: per column read name and type, look the
type up in the registry (an unknown descriptor throws), Load the payload when
num_rows is nonzero (a failed Load throws), and AppendColumn in wire order. -/
def readColumns (rows : Nat) : Nat → List (String × String) → Stream → ColsRes
  | 0, acc, s => .ok acc s
  | k + 1, acc, s =>
    match readStr s with
    | none => .fail s
    | some (nm, s1) =>
      match readStr s1 with
      | none => .fail s1
      | some (ty, s2) =>
        match CreateColumnByType ty with
        | none => .thrown (.unsupportedColumnType ty) s2
        | some ct =>
          if rows ≠ 0 then
            match loadColumn ct rows s2 with
            | none => .thrown .loadFailure s2
            | some s3 => readColumns rows k (acc ++ [(nm, ty)]) s3
          else readColumns rows k (acc ++ [(nm, ty)]) s2

/-- The BlockInfo reads of ReceiveData (tag, is_overflows, tag, bucket_num,
tag): the success flag and the stream position, which on failure is wherever
the failed read left it. -/
def readBlockInfo (s : Stream) : Bool × Stream :=
  match readVar s with
  | none => (false, s)
  | some (_, t1) =>
    match readFix t1 with
    | none => (false, t1)
    | some (_, t2) =>
      match readVar t2 with
      | none => (false, t2)
      | some (_, t3) =>
        match readFix t3 with
        | none => (false, t3)
        | some (_, t4) =>
          match readVar t4 with
          | none => (false, t4)
          | some (_, t5) => (true, t5)

/-- Client::Impl::ReceiveData.  The first parameter is the session's
server_info_.revision; the source gates the temporary-table-name and
BlockInfo reads on the client constant REVISION, not on the server revision,
so that parameter is never inspected here.  Note the source returns false on
the success path (line 383) as well as on a truncated read; success is told
apart by the consumed stream and the delivered OnData. -/
def receiveData (_serverRev : Nat) (evSet : Bool) (s : Stream) : RRes :=
  match (if DBMS_MIN_REVISION_WITH_TEMPORARY_TABLES ≤ REVISION
         then readStr s else some ("", s)) with
  | none => .ret false [] s
  | some (_, s1) =>
    match (if DBMS_MIN_REVISION_WITH_BLOCK_INFO ≤ REVISION
           then readBlockInfo s1 else (true, s1)) with
    | (false, rest) => .ret false [] rest
    | (true, s2) =>
      match readVar s2 with
      | none => .ret false [] s2
      | some (num_columns, s3) =>
        match readVar s3 with
        | none => .ret false [] s3
        | some (num_rows, s4) =>
          match readColumns num_rows num_columns [] s4 with
          | .fail rest => .ret false [] rest
          | .thrown e rest => .thrown e [] rest
          | .ok cols rest =>
            .ret false (if evSet then [Event.onData ⟨cols, num_rows⟩] else []) rest

/-! ## ReceiveException (client.cpp lines 386 to 426) -/

/-- Read one exception frame: fixed i32 code, three strings, fixed u8
has_nested.  On failure the stream stays at the failed read. -/
def readExcFrame (s : Stream) : Option (ExcFrame × Nat) × Stream :=
  match readFix s with
  | none => (none, s)
  | some (code, s1) =>
    match readStr s1 with
    | none => (none, s1)
    | some (nm, s2) =>
      match readStr s2 with
      | none => (none, s2)
      | some (dt, s3) =>
        match readStr s3 with
        | none => (none, s3)
        | some (st, s4) =>
          match readFix s4 with
          | none => (none, s4)
          | some (hn, s5) => (some (⟨code, nm, dt, st⟩, hn), s5)

/-- The do-while of ReceiveException: frames chain while has_nested is
nonzero.  Fuel bounds the loop; each iteration consumes five tokens, so
stream length plus one is always enough. -/
def readExcChainF : Nat → Stream → Option (List ExcFrame) × Stream
  | 0, s => (none, s)
  | fuel + 1, s =>
    match readExcFrame s with
    | (none, rest) => (none, rest)
    | (some (f, hn), rest) =>
      if hn ≠ 0 then
        match readExcChainF fuel rest with
        | (some tail, r) => (some (f :: tail), r)
        | (none, r) => (none, r)
      else (some [f], rest)

def readExcChain (s : Stream) : Option (List ExcFrame) × Stream :=
  readExcChainF (s.length + 1) s

/-- Client::Impl::ReceiveException(rethrow).  A decoded chain is delivered to
the sink when set, then thrown as ServerException when the rethrow argument
or the rethrow_exceptions option is set; a truncated chain returns false. -/
def receiveException (evSet rethrowArg rethrowOpt : Bool) (s : Stream) : RRes :=
  match readExcChain s with
  | (none, rest) => .ret false [] rest
  | (some chain, rest) =>
    let evs := if evSet then [Event.onServerException chain] else []
    if rethrowArg || rethrowOpt then .thrown (.serverException chain) evs rest
    else .ret true evs rest

/-! ## ReceivePacket (client.cpp lines 219 to 310) -/

/-- The dispatch on a read packet code.  The Data case ignores ReceiveData's
boolean (the runtime_error at line 232 is constructed but never thrown) and
returns true; Exception returns false after ReceiveException; ProfileInfo and
Progress decode their fields (Progress gates total_rows on the client
constant REVISION, line 280) and deliver to the sink; Pong returns true;
EndOfStream delivers OnFinish and returns false; any other code throws. -/
def receivePacketAux (serverRev : Nat) (evSet rethrowOpt : Bool)
    (packet_type : Nat) (s : Stream) : RRes :=
  if packet_type = ServerCodes.Data then
    match receiveData serverRev evSet s with
    | .ret _ evs rest => .ret true evs rest
    | .thrown e evs rest => .thrown e evs rest
  else if packet_type = ServerCodes.Exception then
    match receiveException evSet false rethrowOpt s with
    | .ret _ evs rest => .ret false evs rest
    | .thrown e evs rest => .thrown e evs rest
  else if packet_type = ServerCodes.ProfileInfo then
    match readVar s with
    | none => .ret false [] s
    | some (rows, s1) =>
      match readVar s1 with
      | none => .ret false [] s1
      | some (blocks, s2) =>
        match readVar s2 with
        | none => .ret false [] s2
        | some (bytes, s3) =>
          match readFix s3 with
          | none => .ret false [] s3
          | some (al, s4) =>
            match readVar s4 with
            | none => .ret false [] s4
            | some (rbl, s5) =>
              match readFix s5 with
              | none => .ret false [] s5
              | some (crbl, s6) =>
                .ret true
                  (if evSet then [Event.onProfile ⟨rows, blocks, bytes, al, rbl, crbl⟩]
                   else []) s6
  else if packet_type = ServerCodes.Progress then
    match readVar s with
    | none => .ret false [] s
    | some (rows, s1) =>
      match readVar s1 with
      | none => .ret false [] s1
      | some (bytes, s2) =>
        if DBMS_MIN_REVISION_WITH_TOTAL_ROWS_IN_PROGRESS ≤ REVISION then
          match readVar s2 with
          | none => .ret false [] s2
          | some (total, s3) =>
            .ret true (if evSet then [Event.onProgress ⟨rows, bytes, total⟩] else []) s3
        else .ret true (if evSet then [Event.onProgress ⟨rows, bytes, 0⟩] else []) s2
  else if packet_type = ServerCodes.Pong then .ret true [] s
  else if packet_type = ServerCodes.EndOfStream then
    .ret false (if evSet then [Event.onFinish] else []) s
  else .thrown (.unimplementedPacket packet_type) [] s

/-- ReceivePacket with the server_packet out-parameter: reads the packet code
(a failed read leaves the out-parameter at its previous value and returns
false) and dispatches. -/
def receivePacketCoded (serverRev : Nat) (evSet rethrowOpt : Bool)
    (lastPkt : Nat) (s : Stream) : RRes × Nat :=
  match readVar s with
  | none => (.ret false [] s, lastPkt)
  | some (pt, rest) => (receivePacketAux serverRev evSet rethrowOpt pt rest, pt)

def receivePacket (serverRev : Nat) (evSet rethrowOpt : Bool) (s : Stream) : RRes :=
  (receivePacketCoded serverRev evSet rethrowOpt 0 s).1

/-- The receive loop of ExecuteQuery and of Insert's wait-for-EndOfStream
phase: while (ReceivePacket()) {}.  Fuel bounds the loop; the result is the
events delivered in order, the remaining stream, and a thrown exception if
one escaped. -/
def receiveLoop (serverRev : Nat) (evSet rethrowOpt : Bool) :
    Nat → Stream → List Event × Stream × Option Err
  | 0, s => ([], s, none)
  | fuel + 1, s =>
    match receivePacket serverRev evSet rethrowOpt s with
    | .ret true evs rest =>
      let r := receiveLoop serverRev evSet rethrowOpt fuel rest
      (evs ++ r.1, r.2.1, r.2.2)
    | .ret false evs rest => (evs, rest, none)
    | .thrown e evs rest => (evs, rest, some e)

/-! ## ReceiveHello (client.cpp lines 520 to 554) -/

/-- Server profile captured in the handshake; unread fields keep the
default-constructed empty string. -/
structure ServerInfo where
  name : String
  timezone : String
  version_major : Nat
  version_minor : Nat
  revision : Nat
  deriving DecidableEq

inductive HelloRes
  | ok (info : ServerInfo) (rest : Stream)
  | fail (rest : Stream)
  | thrown (e : Err) (rest : Stream)
  deriving DecidableEq

/-- Client::Impl::ReceiveHello.  On a Hello code it reads name, major, minor
and revision, then the timezone only when the just-read server revision
reaches DBMS_MIN_REVISION_WITH_SERVER_TIMEZONE; on an Exception code it runs
ReceiveException(true) (no sink is installed during the handshake), which
throws the decoded chain; any other code returns false. -/
def receiveHello (rethrowOpt : Bool) (s : Stream) : HelloRes :=
  match readVar s with
  | none => .fail s
  | some (pt, s0) =>
    if pt = ServerCodes.Hello then
      match readStr s0 with
      | none => .fail s0
      | some (nm, s1) =>
        match readVar s1 with
        | none => .fail s1
        | some (vmaj, s2) =>
          match readVar s2 with
          | none => .fail s2
          | some (vmin, s3) =>
            match readVar s3 with
            | none => .fail s3
            | some (rev, s4) =>
              if DBMS_MIN_REVISION_WITH_SERVER_TIMEZONE ≤ rev then
                match readStr s4 with
                | none => .fail s4
                | some (tz, s5) => .ok ⟨nm, tz, vmaj, vmin, rev⟩ s5
              else .ok ⟨nm, "", vmaj, vmin, rev⟩ s4
    else if pt = ServerCodes.Exception then
      match receiveException false true rethrowOpt s0 with
      | .thrown e _ rest => .thrown e rest
      | .ret _ _ rest => .fail rest
    else .fail s0

/-! ## SendData and SendQuery (client.cpp lines 428 to 503) -/

/-- What SendData reads from a Block: the (name, type-name, saved payload)
column triples in insertion order, the row count, and the BlockInfo pair.
Modelled from the spec where block.h is missing from src/: section 3 gives
the block as ordered (name, type, column) triples with a row count and info
metadata {is_overflows, bucket_num}; the default info values of a
default-constructed Block are not specified and no claim depends on them, so
the defaults here are 0. -/
structure SBlock where
  columns : List (String × String × List OutItem)
  rows : Nat
  is_overflows : Nat := 0
  bucket_num : Nat := 0
  deriving DecidableEq

/-- Block(): the empty block, the end-of-data marker. -/
def emptyBlock : SBlock := { columns := [], rows := 0 }

/-- Client::Impl::SendData: the Data code, the temporary-table name gated on
server_info_.revision, the BlockInfo fields (tags 1, 2, 0) gated on
server_info_.revision, the column and row counts, each column's name, type
name and saved payload, then a flush. -/
def sendData (serverRev : Nat) (b : SBlock) : List OutItem :=
  let o := writeVaru [] ClientCodes.Data
  let o := if DBMS_MIN_REVISION_WITH_TEMPORARY_TABLES ≤ serverRev
           then writeStr o "" else o
  let o := if DBMS_MIN_REVISION_WITH_BLOCK_INFO ≤ serverRev then
             let o := writeVaru o 1
             let o := writeFix o b.is_overflows
             let o := writeVaru o 2
             let o := writeFix o b.bucket_num
             writeVaru o 0
           else o
  let o := writeVaru o b.columns.length
  let o := writeVaru o b.rows
  let o := b.columns.foldl (fun o c => writeStr (writeStr o c.1) c.2.1 ++ c.2.2) o
  flushOut o

/-- The ClientInfo struct of client.cpp lines 28 to 41, with its in-class
defaults. -/
structure ClientInfo where
  iface_type : Nat := 1
  query_kind : Nat := 0
  initial_user : String := ""
  initial_query_id : String := ""
  quota_key : String := ""
  os_user : String := ""
  client_hostname : String := ""
  client_name : String := ""
  initial_address : String := "[::ffff:127.0.0.1]:0"
  client_version_major : Nat := 0
  client_version_minor : Nat := 0
  client_revision : Nat := 0
  deriving DecidableEq

/-- Client::Impl::SendQuery: the Query code, the query id as a decimal
string, the ClientInfo block gated on server_info_.revision at 54032 (with
quota_key appended at 54060), the empty settings string, the Complete stage,
compression Disable, the query text, the empty block through SendData (which
flushes), and a final flush. -/
def sendQuery (serverRev : Nat) (query_id : Nat) (query : String) : List OutItem :=
  let o := writeVaru [] ClientCodes.Query
  let o := writeStr o (toString query_id)
  let o :=
    if DBMS_MIN_REVISION_WITH_CLIENT_INFO ≤ serverRev then
      let info : ClientInfo :=
        { query_kind := 1
          client_name := "ClickHouse client"
          client_version_major := DBMS_VERSION_MAJOR
          client_version_minor := DBMS_VERSION_MINOR
          client_revision := REVISION }
      let o := writeFix o info.query_kind
      let o := writeStr o info.initial_user
      let o := writeStr o info.initial_query_id
      let o := writeStr o info.initial_address
      let o := writeFix o info.iface_type
      let o := writeStr o info.os_user
      let o := writeStr o info.client_hostname
      let o := writeStr o info.client_name
      let o := writeVaru o info.client_version_major
      let o := writeVaru o info.client_version_minor
      let o := writeVaru o info.client_revision
      if DBMS_MIN_REVISION_WITH_QUOTA_KEY_IN_CLIENT_INFO ≤ serverRev then
        writeStr o info.quota_key
      else o
    else o
  let o := writeStr o ""
  let o := writeVaru o Stages.Complete
  let o := writeVaru o CompressionState.Disable
  let o := writeStr o query
  let o := o ++ sendData serverRev emptyBlock
  flushOut o

/-! ## Query ids (client.cpp lines 127 to 136) -/

/-- GenerateQueryId: pre-increment of the process-global atomic counter,
returning the new value and the new counter state. -/
def GenerateQueryId (counter : Nat) : Nat × Nat := (counter + 1, counter + 1)

/-- The query-id state of Client::Impl: query_id_ is assigned once in the
constructor initialiser list from GenerateQueryId and never written again. -/
structure SessionIds where
  query_id : Nat
  deriving DecidableEq

/-- The constructor's effect on the query-id state: the new session and the
advanced global counter. -/
def implCtorId (counter : Nat) : SessionIds × Nat :=
  ((⟨(GenerateQueryId counter).1⟩ : SessionIds), (GenerateQueryId counter).2)

/-- ExecuteQuery's send half: SendQuery(query.GetText()) using the session's
query_id_; nothing in ExecuteQuery assigns query_id_, so the session state
after the call is unchanged. -/
def executeQuerySend (serverRev : Nat) (sess : SessionIds) (q : String) :
    List OutItem × SessionIds :=
  (sendQuery serverRev sess.query_id q, sess)

/-! ## Ping (client.cpp lines 202 to 207) -/

/-- Client::Impl::Ping's send half: write the Ping code and flush. -/
def pingSend : List OutItem := flushOut (writeVaru [] ClientCodes.Ping)

/-- Client::Impl::Ping's receive half: one ReceivePacket with no sink
installed; its boolean result is ignored, so Ping returns normally unless
the dispatch throws. -/
def pingRecv (serverRev : Nat) (rethrowOpt : Bool) (s : Stream) : RRes :=
  receivePacket serverRev false rethrowOpt s

/-! ## Insert (client.cpp lines 169 to 200) -/

/-- The first phase of Client::Impl::Insert: receive packets until one whose
code is Data arrives.  The failed-receive runtime_error at line 180 is
constructed but never thrown; the loop breaks only on Data, and the explicit
continue on Progress is redundant.  events_ is null throughout Insert (only
ExecuteQuery installs a sink), so every reception runs with no sink.  The
final Bool records whether the Data packet was reached within the fuel. -/
def insertAwaitData (serverRev : Nat) (rethrowOpt : Bool) :
    Nat → Nat → Stream → List Event × Stream × Option Err × Bool
  | 0, _, s => ([], s, none, false)
  | fuel + 1, lastPkt, s =>
    match receivePacketCoded serverRev false rethrowOpt lastPkt s with
    | (.thrown e evs rest, _) => (evs, rest, some e, false)
    | (.ret _ evs rest, pkt) =>
      if pkt = ServerCodes.Data then (evs, rest, none, true)
      else
        let r := insertAwaitData serverRev rethrowOpt fuel pkt rest
        (evs ++ r.1, r.2.1, r.2.2.1, r.2.2.2)

/-- The receive side of Insert end to end: await the schema Data packet, then
(after the block and the empty end-of-data marker are sent) the
wait-for-EndOfStream loop, all with no sink installed.  The result collects
every event delivered to a sink during Insert. -/
def insertRecv (serverRev : Nat) (rethrowOpt : Bool) (fuel1 fuel2 : Nat)
    (s : Stream) : List Event × Stream × Option Err :=
  let r := insertAwaitData serverRev rethrowOpt fuel1 0 s
  match r.2.2.1 with
  | some e => (r.1, r.2.1, some e)
  | none =>
    let r2 := receiveLoop serverRev false rethrowOpt fuel2 r.2.1
    (r.1 ++ r2.1, r2.2.1, r2.2.2)

/-! ## Encoders used to state the theorems: well-formed server packets -/

/-- A canonical per-row payload field of a column kind (values are immaterial
to the claims). -/
def baseTok : BaseType → Tok
  | .string => Tok.str ""
  | _ => Tok.fix 0

/-- One column entry of a Data packet body: name, type descriptor, payload. -/
def encCol (rows : Nat) (c : String × BaseType) : Stream :=
  Tok.str c.1 :: Tok.str (baseName c.2) :: List.replicate rows (baseTok c.2)

def encCols (cols : List (String × BaseType)) (rows : Nat) : Stream :=
  cols.flatMap (encCol rows)

/-- The (name, type descriptor) pairs a decoded block should carry. -/
def colsNamed (cols : List (String × BaseType)) : List (String × String) :=
  cols.map (fun c => (c.1, baseName c.2))

/-- A full Data packet body: temporary-table name, the five BlockInfo fields
(tag, is_overflows, tag, bucket_num, tag), the column and row counts, and
the column entries. -/
def encDataBody (tbl : String) (t1 ov t2 bn t3 : Nat)
    (cols : List (String × BaseType)) (rows : Nat) : Stream :=
  Tok.str tbl :: Tok.varu t1 :: Tok.fix ov :: Tok.varu t2 :: Tok.fix bn ::
    Tok.varu t3 :: Tok.varu cols.length :: Tok.varu rows :: encCols cols rows

/-- One wire frame of an exception chain with its has_nested byte. -/
def encFrame (f : ExcFrame) (hn : Nat) : Stream :=
  [Tok.fix f.code, Tok.str f.name, Tok.str f.display_text,
   Tok.str f.stack_trace, Tok.fix hn]

/-- A whole exception chain: every frame but the last with has_nested 1, the
last with 0. -/
def encodeChain : ExcFrame → List ExcFrame → Stream
  | f, [] => encFrame f 0
  | f, g :: gs => encFrame f 1 ++ encodeChain g gs

/-- The non-terminal server packets, used to state that the receive loop runs
through them. -/
inductive NTPacket
  | data (cols : List (String × BaseType)) (rows : Nat)
  | progress (rows bytes total : Nat)
  | profile (rows blocks bytes al rbl crbl : Nat)
  | pong
  deriving DecidableEq

def encodeNT : NTPacket → Stream
  | .data cols rows => Tok.varu ServerCodes.Data :: encDataBody "" 1 0 2 0 0 cols rows
  | .progress rows bytes total =>
    [Tok.varu ServerCodes.Progress, Tok.varu rows, Tok.varu bytes, Tok.varu total]
  | .profile rows blocks bytes al rbl crbl =>
    [Tok.varu ServerCodes.ProfileInfo, Tok.varu rows, Tok.varu blocks,
     Tok.varu bytes, Tok.fix al, Tok.varu rbl, Tok.fix crbl]
  | .pong => [Tok.varu ServerCodes.Pong]

def encodeNTs (ps : List NTPacket) : Stream := ps.flatMap encodeNT

/-- The sink deliveries a non-terminal packet causes when a sink is set. -/
def ntEvents : NTPacket → List Event
  | .data cols rows => [Event.onData ⟨colsNamed cols, rows⟩]
  | .progress rows bytes total => [Event.onProgress ⟨rows, bytes, total⟩]
  | .profile rows blocks bytes al rbl crbl =>
    [Event.onProfile ⟨rows, blocks, bytes, al, rbl, crbl⟩]
  | .pong => []

/-! ## Helper lemmas -/

lemma tempTablesGate : DBMS_MIN_REVISION_WITH_TEMPORARY_TABLES ≤ REVISION := by decide

lemma blockInfoGate : DBMS_MIN_REVISION_WITH_BLOCK_INFO ≤ REVISION := by decide

lemma totalRowsGate : DBMS_MIN_REVISION_WITH_TOTAL_ROWS_IN_PROGRESS ≤ REVISION := by decide

lemma createColumn_baseName (b : BaseType) :
    CreateColumnByType (baseName b) = some (ColType.base b) := by
  cases b <;> rfl

lemma colTokOk_baseTok (b : BaseType) : colTokOk (ColType.base b) (baseTok b) = true := by
  cases b <;> rfl

lemma loadColumn_replicate (b : BaseType) (n : Nat) (rest : Stream) :
    loadColumn (ColType.base b) n (List.replicate n (baseTok b) ++ rest) = some rest := by
  induction n with
  | zero => rfl
  | succ n ih => simp [List.replicate_succ, loadColumn, colTokOk_baseTok, ih]

lemma readColumns_step (rows k : Nat) (acc : List (String × String))
    (c : String × BaseType) (s : Stream) :
    readColumns rows (k + 1) acc (encCol rows c ++ s)
      = readColumns rows k (acc ++ [(c.1, baseName c.2)]) s := by
  by_cases h : rows = 0
  · subst h
    simp [encCol, readColumns, readStr, createColumn_baseName]
  · simp [encCol, readColumns, readStr, createColumn_baseName, h, loadColumn_replicate]

lemma readColumns_encCols (cols : List (String × BaseType)) (rows : Nat)
    (acc : List (String × String)) (rest : Stream) :
    readColumns rows cols.length acc (encCols cols rows ++ rest)
      = ColsRes.ok (acc ++ colsNamed cols) rest := by
  induction cols generalizing acc with
  | nil => simp [encCols, colsNamed, readColumns]
  | cons c cs ih =>
    rw [show (c :: cs).length = cs.length + 1 from rfl,
      show encCols (c :: cs) rows = encCol rows c ++ encCols cs rows from rfl,
      List.append_assoc, readColumns_step]
    simpa [colsNamed] using ih (acc ++ [(c.1, baseName c.2)])

lemma receiveData_enc (rev : Nat) (ev : Bool) (tbl : String) (t1 ov t2 bn t3 : Nat)
    (cols : List (String × BaseType)) (rows : Nat) (rest : Stream) :
    receiveData rev ev (encDataBody tbl t1 ov t2 bn t3 cols rows ++ rest)
      = RRes.ret false (if ev then [Event.onData ⟨colsNamed cols, rows⟩] else []) rest := by
  have h := readColumns_encCols cols rows [] rest
  simp [encDataBody, receiveData, if_pos tempTablesGate, if_pos blockInfoGate,
    readBlockInfo, readVar, readFix, readStr, h]

lemma readColumns_unknown (rows : Nat) (cols : List (String × BaseType)) (k : Nat)
    (acc : List (String × String)) (nm bad : String) (s : Stream)
    (hbad : CreateColumnByType bad = none) :
    readColumns rows (cols.length + (k + 1)) acc
      (encCols cols rows ++ Tok.str nm :: Tok.str bad :: s)
      = ColsRes.thrown (Err.unsupportedColumnType bad) s := by
  induction cols generalizing acc with
  | nil => simp [encCols, readColumns, readStr, hbad]
  | cons c cs ih =>
    have e : (c :: cs).length + (k + 1) = (cs.length + (k + 1)) + 1 := by
      simp [List.length_cons]; omega
    rw [e, show encCols (c :: cs) rows = encCol rows c ++ encCols cs rows from rfl,
      List.append_assoc, readColumns_step]
    exact ih (acc ++ [(c.1, baseName c.2)])

lemma receiveData_unknown (rev : Nat) (ev : Bool) (tbl : String) (t1 ov t2 bn t3 : Nat)
    (cols : List (String × BaseType)) (k rows : Nat) (nm bad : String) (s : Stream)
    (hbad : CreateColumnByType bad = none) :
    receiveData rev ev
      (Tok.str tbl :: Tok.varu t1 :: Tok.fix ov :: Tok.varu t2 :: Tok.fix bn ::
       Tok.varu t3 :: Tok.varu (cols.length + (k + 1)) :: Tok.varu rows ::
       (encCols cols rows ++ Tok.str nm :: Tok.str bad :: s))
      = RRes.thrown (Err.unsupportedColumnType bad) [] s := by
  have h := readColumns_unknown rows cols k [] nm bad s hbad
  simp [receiveData, if_pos tempTablesGate, if_pos blockInfoGate,
    readBlockInfo, readVar, readFix, readStr, h]

lemma encodeChain_length (f : ExcFrame) (fs : List ExcFrame) :
    (encodeChain f fs).length = 5 * (fs.length + 1) := by
  induction fs generalizing f with
  | nil => rfl
  | cons g gs ih =>
    simp [encodeChain, encFrame, ih g]
    omega

lemma readExcChainF_enc (fs : List ExcFrame) (f : ExcFrame) (fuel : Nat) (rest : Stream)
    (h : fs.length < fuel) :
    readExcChainF fuel (encodeChain f fs ++ rest) = (some (f :: fs), rest) := by
  induction fs generalizing f fuel with
  | nil =>
    match fuel, h with
    | fuel + 1, _ =>
      simp [encodeChain, encFrame, readExcChainF, readExcFrame, readFix, readStr]
  | cons g gs ih =>
    match fuel, h with
    | fuel + 1, h =>
      have hg : gs.length < fuel := by simpa using Nat.lt_of_succ_lt_succ h
      simp [encodeChain, encFrame, readExcChainF, readExcFrame, readFix, readStr,
        ih g fuel hg]

lemma readExcChain_enc (f : ExcFrame) (fs : List ExcFrame) (rest : Stream) :
    readExcChain (encodeChain f fs ++ rest) = (some (f :: fs), rest) := by
  unfold readExcChain
  apply readExcChainF_enc
  have h := encodeChain_length f fs
  simp [List.length_append, h]
  omega

lemma receiveException_enc (ev ra ro : Bool) (f : ExcFrame) (fs : List ExcFrame)
    (rest : Stream) :
    receiveException ev ra ro (encodeChain f fs ++ rest)
      = if ra || ro then
          RRes.thrown (Err.serverException (f :: fs))
            (if ev then [Event.onServerException (f :: fs)] else []) rest
        else
          RRes.ret true (if ev then [Event.onServerException (f :: fs)] else []) rest := by
  simp [receiveException, readExcChain_enc]

lemma receivePacket_cons (rev : Nat) (ev ro : Bool) (pt : Nat) (s : Stream) :
    receivePacket rev ev ro (Tok.varu pt :: s) = receivePacketAux rev ev ro pt s := rfl

lemma receivePacketAux_data (rev : Nat) (ev ro : Bool) (s : Stream) :
    receivePacketAux rev ev ro ServerCodes.Data s
      = (match receiveData rev ev s with
         | .ret _ evs rest => RRes.ret true evs rest
         | .thrown e evs rest => RRes.thrown e evs rest) := by
  simp [receivePacketAux]

lemma receivePacket_data_enc (rev : Nat) (ev ro : Bool) (tbl : String)
    (t1 ov t2 bn t3 : Nat) (cols : List (String × BaseType)) (rows : Nat)
    (rest : Stream) :
    receivePacket rev ev ro
        (Tok.varu ServerCodes.Data :: (encDataBody tbl t1 ov t2 bn t3 cols rows ++ rest))
      = RRes.ret true (if ev then [Event.onData ⟨colsNamed cols, rows⟩] else []) rest := by
  rw [receivePacket_cons, receivePacketAux_data, receiveData_enc]

lemma receivePacket_progress (rev : Nat) (ev ro : Bool) (rows bytes total : Nat)
    (rest : Stream) :
    receivePacket rev ev ro
        (Tok.varu ServerCodes.Progress :: Tok.varu rows :: Tok.varu bytes ::
          Tok.varu total :: rest)
      = RRes.ret true (if ev then [Event.onProgress ⟨rows, bytes, total⟩] else []) rest := by
  rw [receivePacket_cons]
  simp [receivePacketAux, ServerCodes.Data, ServerCodes.Exception, ServerCodes.ProfileInfo,
    ServerCodes.Progress, readVar, if_pos totalRowsGate]

lemma receivePacket_profile (rev : Nat) (ev ro : Bool) (rows blocks bytes al rbl crbl : Nat)
    (rest : Stream) :
    receivePacket rev ev ro
        (Tok.varu ServerCodes.ProfileInfo :: Tok.varu rows :: Tok.varu blocks ::
          Tok.varu bytes :: Tok.fix al :: Tok.varu rbl :: Tok.fix crbl :: rest)
      = RRes.ret true
          (if ev then [Event.onProfile ⟨rows, blocks, bytes, al, rbl, crbl⟩] else []) rest := by
  rw [receivePacket_cons]
  simp [receivePacketAux, ServerCodes.Data, ServerCodes.Exception, ServerCodes.ProfileInfo,
    readVar, readFix]

lemma receivePacket_pong (rev : Nat) (ev ro : Bool) (rest : Stream) :
    receivePacket rev ev ro (Tok.varu ServerCodes.Pong :: rest)
      = RRes.ret true [] rest := by
  rw [receivePacket_cons]
  simp [receivePacketAux, ServerCodes.Data, ServerCodes.Exception, ServerCodes.ProfileInfo,
    ServerCodes.Progress, ServerCodes.Pong]

lemma receivePacket_eos (rev : Nat) (ev ro : Bool) (rest : Stream) :
    receivePacket rev ev ro (Tok.varu ServerCodes.EndOfStream :: rest)
      = RRes.ret false (if ev then [Event.onFinish] else []) rest := by
  rw [receivePacket_cons]
  simp [receivePacketAux, ServerCodes.Data, ServerCodes.Exception, ServerCodes.ProfileInfo,
    ServerCodes.Progress, ServerCodes.Pong, ServerCodes.EndOfStream]

lemma receivePacket_exception (rev : Nat) (ev ro : Bool) (f : ExcFrame)
    (fs : List ExcFrame) (rest : Stream) :
    receivePacket rev ev ro
        (Tok.varu ServerCodes.Exception :: (encodeChain f fs ++ rest))
      = if ro then
          RRes.thrown (Err.serverException (f :: fs))
            (if ev then [Event.onServerException (f :: fs)] else []) rest
        else
          RRes.ret false (if ev then [Event.onServerException (f :: fs)] else []) rest := by
  rw [receivePacket_cons]
  simp only [receivePacketAux, ServerCodes.Data, ServerCodes.Exception]
  rw [receiveException_enc]
  by_cases h : ro <;> simp [h]

lemma receivePacket_encodeNT (rev : Nat) (ro : Bool) (p : NTPacket) (rest : Stream) :
    receivePacket rev true ro (encodeNT p ++ rest) = RRes.ret true (ntEvents p) rest := by
  cases p with
  | data cols rows =>
    simpa [encodeNT, ntEvents] using
      receivePacket_data_enc rev true ro "" 1 0 2 0 0 cols rows rest
  | progress rows bytes total =>
    simpa [encodeNT, ntEvents] using
      receivePacket_progress rev true ro rows bytes total rest
  | profile rows blocks bytes al rbl crbl =>
    simpa [encodeNT, ntEvents] using
      receivePacket_profile rev true ro rows blocks bytes al rbl crbl rest
  | pong =>
    simpa [encodeNT, ntEvents] using receivePacket_pong rev true ro rest

lemma receiveLoop_encodeNTs (rev : Nat) (ro : Bool) (ps : List NTPacket) :
    receiveLoop rev true ro (ps.length + 1) (encodeNTs ps ++ [Tok.varu ServerCodes.EndOfStream])
      = (ps.flatMap ntEvents ++ [Event.onFinish], [], none) := by
  induction ps with
  | nil =>
    simp [encodeNTs, receiveLoop, receivePacket_eos]
  | cons p ps ih =>
    rw [show (p :: ps).length + 1 = (ps.length + 1) + 1 from rfl]
    rw [show encodeNTs (p :: ps) = encodeNT p ++ encodeNTs ps from rfl]
    rw [show receiveLoop rev true ro ((ps.length + 1) + 1)
          ((encodeNT p ++ encodeNTs ps) ++ [Tok.varu ServerCodes.EndOfStream])
        = (match receivePacket rev true ro
              ((encodeNT p ++ encodeNTs ps) ++ [Tok.varu ServerCodes.EndOfStream]) with
           | .ret true evs rest =>
             let r := receiveLoop rev true ro (ps.length + 1) rest
             (evs ++ r.1, r.2.1, r.2.2)
           | .ret false evs rest => (evs, rest, none)
           | .thrown e evs rest => (evs, rest, some e)) from rfl]
    rw [List.append_assoc, receivePacket_encodeNT]
    simp [ih]

lemma receivePacket_unknown (rev : Nat) (ev ro : Bool) (c : Nat) (rest : Stream)
    (h : 7 ≤ c) :
    receivePacket rev ev ro (Tok.varu c :: rest)
      = RRes.thrown (Err.unimplementedPacket c) [] rest := by
  rw [receivePacket_cons]
  simp only [receivePacketAux, ServerCodes.Data, ServerCodes.Exception,
    ServerCodes.ProfileInfo, ServerCodes.Progress, ServerCodes.Pong, ServerCodes.EndOfStream]
  split_ifs <;> first | omega | rfl

lemma receiveHello_enc (ro : Bool) (nm : String) (vmaj vmin rev : Nat) (tz : String)
    (rest : Stream) :
    receiveHello ro
        (Tok.varu ServerCodes.Hello :: Tok.str nm :: Tok.varu vmaj :: Tok.varu vmin ::
          Tok.varu rev ::
          (if DBMS_MIN_REVISION_WITH_SERVER_TIMEZONE ≤ rev then Tok.str tz :: rest else rest))
      = HelloRes.ok
          ⟨nm, if DBMS_MIN_REVISION_WITH_SERVER_TIMEZONE ≤ rev then tz else "",
           vmaj, vmin, rev⟩ rest := by
  by_cases h : DBMS_MIN_REVISION_WITH_SERVER_TIMEZONE ≤ rev <;>
    simp [receiveHello, readVar, readStr, ServerCodes.Hello, h]

lemma receiveHello_exception (ro : Bool) (f : ExcFrame) (fs : List ExcFrame)
    (rest : Stream) :
    receiveHello ro (Tok.varu ServerCodes.Exception :: (encodeChain f fs ++ rest))
      = HelloRes.thrown (Err.serverException (f :: fs)) rest := by
  simp [receiveHello, readVar, ServerCodes.Hello, ServerCodes.Exception,
    receiveException_enc]

lemma receiveData_noSink (rev : Nat) (s : Stream) :
    (receiveData rev false s).events = [] := by
  unfold receiveData
  repeat' split
  all_goals simp_all [RRes.events]

lemma receiveException_noSink (ra ro : Bool) (s : Stream) :
    (receiveException false ra ro s).events = [] := by
  unfold receiveException
  repeat' split
  all_goals simp_all [RRes.events]

lemma receivePacketAux_noSink (rev : Nat) (ro : Bool) (pt : Nat) (s : Stream) :
    (receivePacketAux rev false ro pt s).events = [] := by
  have hd := receiveData_noSink rev s
  have he := receiveException_noSink false ro s
  unfold receivePacketAux
  repeat' split
  all_goals simp_all [RRes.events]

lemma receivePacket_noSink (rev : Nat) (ro : Bool) (s : Stream) :
    (receivePacket rev false ro s).events = [] := by
  unfold receivePacket receivePacketCoded
  split
  · simp [RRes.events]
  · exact receivePacketAux_noSink rev ro _ _

lemma receiveLoop_noSink (rev : Nat) (ro : Bool) (fuel : Nat) (s : Stream) :
    (receiveLoop rev false ro fuel s).1 = [] := by
  induction fuel generalizing s with
  | zero => rfl
  | succ fuel ih =>
    have h := receivePacket_noSink rev ro s
    unfold receiveLoop
    split <;> simp_all [RRes.events, ih]

lemma insertAwaitData_noSink (rev : Nat) (ro : Bool) (fuel lastPkt : Nat) (s : Stream) :
    (insertAwaitData rev ro fuel lastPkt s).1 = [] := by
  induction fuel generalizing lastPkt s with
  | zero => rfl
  | succ fuel ih =>
    have h : ((receivePacketCoded rev false ro lastPkt s).1).events = [] := by
      unfold receivePacketCoded
      split
      · simp [RRes.events]
      · exact receivePacketAux_noSink rev ro _ _
    unfold insertAwaitData
    split
    · rename_i heq
      rw [heq] at h
      simpa [RRes.events] using h
    · rename_i heq
      rw [heq] at h
      simp only [RRes.events] at h
      split <;> simp [h, ih]

/-- The output items one column contributes to SendData: name, type name,
saved payload. -/
def colOut (c : String × String × List OutItem) : List OutItem :=
  [OutItem.str c.1, OutItem.str c.2.1] ++ c.2.2

lemma foldl_writeCols (cols : List (String × String × List OutItem))
    (o : List OutItem) :
    cols.foldl (fun o c => writeStr (writeStr o c.1) c.2.1 ++ c.2.2) o
      = o ++ cols.flatMap colOut := by
  induction cols generalizing o with
  | nil => simp
  | cons c cs ih =>
    rw [show (c :: cs).foldl (fun o c => writeStr (writeStr o c.1) c.2.1 ++ c.2.2) o
          = cs.foldl (fun o c => writeStr (writeStr o c.1) c.2.1 ++ c.2.2)
              (writeStr (writeStr o c.1) c.2.1 ++ c.2.2) from rfl, ih]
    simp [writeStr, colOut, List.append_assoc]

lemma sendData_eq (rev : Nat) (b : SBlock) :
    sendData rev b
      = [OutItem.varu 2]
        ++ (if 50264 ≤ rev then [OutItem.str ""] else [])
        ++ (if 51903 ≤ rev then
              [OutItem.varu 1, OutItem.fix b.is_overflows, OutItem.varu 2,
               OutItem.fix b.bucket_num, OutItem.varu 0]
            else [])
        ++ [OutItem.varu b.columns.length, OutItem.varu b.rows]
        ++ b.columns.flatMap colOut ++ [OutItem.flush] := by
  simp only [sendData, foldl_writeCols, DBMS_MIN_REVISION_WITH_TEMPORARY_TABLES,
    DBMS_MIN_REVISION_WITH_BLOCK_INFO, ClientCodes.Data]
  split_ifs <;> simp [writeVaru, writeStr, writeFix, flushOut]

lemma sendQuery_eq (rev : Nat) (qid : Nat) (q : String) :
    sendQuery rev qid q
      = [OutItem.varu 1, OutItem.str (toString qid)]
        ++ (if 54032 ≤ rev then
              [OutItem.fix 1, OutItem.str "", OutItem.str "",
               OutItem.str "[::ffff:127.0.0.1]:0", OutItem.fix 1, OutItem.str "",
               OutItem.str "", OutItem.str "ClickHouse client", OutItem.varu 1,
               OutItem.varu 1, OutItem.varu 54126]
              ++ (if 54060 ≤ rev then [OutItem.str ""] else [])
            else [])
        ++ [OutItem.str "", OutItem.varu 2, OutItem.varu 0, OutItem.str q]
        ++ ([OutItem.varu 2]
            ++ (if 50264 ≤ rev then [OutItem.str ""] else [])
            ++ (if 51903 ≤ rev then
                  [OutItem.varu 1, OutItem.fix 0, OutItem.varu 2, OutItem.fix 0,
                   OutItem.varu 0]
                else [])
            ++ [OutItem.varu 0, OutItem.varu 0, OutItem.flush])
        ++ [OutItem.flush] := by
  simp only [sendQuery, sendData_eq, DBMS_MIN_REVISION_WITH_CLIENT_INFO,
    DBMS_MIN_REVISION_WITH_QUOTA_KEY_IN_CLIENT_INFO, ClientCodes.Query, Stages.Complete,
    CompressionState.Disable, DBMS_VERSION_MAJOR, DBMS_VERSION_MINOR, REVISION, emptyBlock]
  split_ifs <;> simp [writeVaru, writeStr, writeFix, flushOut]

lemma sendQuery_queryIdItem (rev : Nat) (qid : Nat) (q : String) :
    (sendQuery rev qid q)[1]? = some (OutItem.str (toString qid)) := by
  rw [sendQuery_eq]
  simp [List.append_assoc]

lemma receiveData_demands_table (rev : Nat) (ev : Bool) (v : Nat) (rest : Stream) :
    receiveData rev ev (Tok.varu v :: rest) = RRes.ret false [] (Tok.varu v :: rest) := by
  simp [receiveData, if_pos tempTablesGate, readStr]

lemma receivePacket_hello_code (rev : Nat) (ev ro : Bool) (rest : Stream) :
    receivePacket rev ev ro (Tok.varu 0 :: rest)
      = RRes.thrown (Err.unimplementedPacket 0) [] rest := by
  rw [receivePacket_cons]
  simp [receivePacketAux, ServerCodes.Data, ServerCodes.Exception, ServerCodes.ProfileInfo,
    ServerCodes.Progress, ServerCodes.Pong, ServerCodes.EndOfStream]

/-! ## The claims -/

/-- C1, corrected.  The claim reads every revision gate as a comparison
against server.revision, on both the emit and the consume side.  In the code
only the emit side (SendData) and the timezone read in ReceiveHello compare
server_info_.revision; the consume side in ReceiveData (temporary-table name,
BlockInfo) and in the Progress handler (total_rows) compares the client
constant REVISION = 54126, which is at or above every gate, so those fields
are always consumed no matter the server revision.  This theorem states the
amended gating: SendData emits the table name iff 50264 ≤ server revision and
BlockInfo iff 51903 ≤ server revision; ReceiveData is independent of the
server revision, always consumes both gated fields (a body lacking the
leading table-name string fails to decode at any revision); the Progress
handler always consumes total_rows; ReceiveHello consumes the timezone iff
the received revision is at least 54058. -/
theorem C1_revision_gating :
    (∀ rev b, sendData rev b
        = [OutItem.varu 2]
          ++ (if 50264 ≤ rev then [OutItem.str ""] else [])
          ++ (if 51903 ≤ rev then
                [OutItem.varu 1, OutItem.fix b.is_overflows, OutItem.varu 2,
                 OutItem.fix b.bucket_num, OutItem.varu 0]
              else [])
          ++ [OutItem.varu b.columns.length, OutItem.varu b.rows]
          ++ b.columns.flatMap colOut ++ [OutItem.flush])
    ∧ (∀ rev rev2 ev s, receiveData rev ev s = receiveData rev2 ev s)
    ∧ (∀ rev ev tbl t1 ov t2 bn t3 cols rows rest,
        receiveData rev ev (encDataBody tbl t1 ov t2 bn t3 cols rows ++ rest)
          = RRes.ret false (if ev then [Event.onData ⟨colsNamed cols, rows⟩] else []) rest)
    ∧ (∀ rev ev v rest,
        receiveData rev ev (Tok.varu v :: rest) = RRes.ret false [] (Tok.varu v :: rest))
    ∧ (∀ rev ev ro rows bytes total rest,
        receivePacket rev ev ro
            (Tok.varu ServerCodes.Progress :: Tok.varu rows :: Tok.varu bytes ::
              Tok.varu total :: rest)
          = RRes.ret true (if ev then [Event.onProgress ⟨rows, bytes, total⟩] else []) rest)
    ∧ (∀ ro nm vmaj vmin rev tz rest,
        receiveHello ro
            (Tok.varu ServerCodes.Hello :: Tok.str nm :: Tok.varu vmaj :: Tok.varu vmin ::
              Tok.varu rev ::
              (if DBMS_MIN_REVISION_WITH_SERVER_TIMEZONE ≤ rev
               then Tok.str tz :: rest else rest))
          = HelloRes.ok
              ⟨nm, if DBMS_MIN_REVISION_WITH_SERVER_TIMEZONE ≤ rev then tz else "",
               vmaj, vmin, rev⟩ rest) :=
  ⟨sendData_eq, fun _ _ _ _ => rfl, receiveData_enc, receiveData_demands_table,
    receivePacket_progress, receiveHello_enc⟩

/-- C1 counterexample.  At server revision 0, below every receive-side gate,
the gated fields are still consumed: a Data body carrying the table name and
BlockInfo decodes (and omitting them, as the claim requires below the gate,
fails), and a Progress body is consumed only when total_rows is present. -/
theorem C1_counterexample :
    receiveData 0 true
        [Tok.str "", Tok.varu 1, Tok.fix 0, Tok.varu 2, Tok.fix 0, Tok.varu 0,
         Tok.varu 0, Tok.varu 0]
      = RRes.ret false [Event.onData ⟨[], 0⟩] []
    ∧ receiveData 0 true [Tok.varu 0, Tok.varu 0]
      = RRes.ret false [] [Tok.varu 0, Tok.varu 0]
    ∧ receivePacket 0 true false [Tok.varu 3, Tok.varu 10, Tok.varu 80]
      = RRes.ret false [] []
    ∧ receivePacket 0 true false [Tok.varu 3, Tok.varu 10, Tok.varu 80, Tok.varu 100]
      = RRes.ret true [Event.onProgress ⟨10, 80, 100⟩] [] := by decide

/-- C2, corrected.  The claim says the query id has lifetime one call into
the session, so two sequential executes on one session send strictly
increasing ids.  In the code GenerateQueryId is called once, in the
constructor initialiser list, and SendQuery reuses query_id_ for every
query; so both sequential executes on a session built when the global
counter was at `counter` send the same id `counter + 1`, while sessions
constructed sequentially do get strictly increasing ids. -/
theorem C2_query_id_per_session :
    (∀ rev counter q1 q2,
        (executeQuerySend rev (implCtorId counter).1 q1).1[1]?
          = some (OutItem.str (toString (counter + 1)))
      ∧ (executeQuerySend rev ((executeQuerySend rev (implCtorId counter).1 q1).2) q2).1[1]?
          = some (OutItem.str (toString (counter + 1))))
    ∧ (∀ counter,
        ((implCtorId counter).1).query_id
          < ((implCtorId ((implCtorId counter).2)).1).query_id) := by
  constructor
  · intro rev counter q1 q2
    constructor <;>
      simpa [executeQuerySend, implCtorId, GenerateQueryId] using
        sendQuery_queryIdItem rev (counter + 1) _
  · intro counter
    simp [implCtorId, GenerateQueryId]

/-- C2 counterexample.  A session constructed at global counter 0 sends the
query-id string "1" in the Query packet of both its first and its second
sequential execute call: the ids are equal, not strictly increasing. -/
theorem C2_counterexample :
    (executeQuerySend 54126 (implCtorId 0).1 "SELECT 1").1[1]?
      = some (OutItem.str "1")
    ∧ (executeQuerySend 54126
          ((executeQuerySend 54126 (implCtorId 0).1 "SELECT 1").2) "SELECT 1").1[1]?
      = some (OutItem.str "1") := by decide

/-- C3, corrected.  Ping sends the varuint64 Ping code and flushes, then
receives one packet whose boolean result it ignores.  A Pong reply returns
Ok; but an EndOfStream reply (code 5) is consumed by the dispatch switch
without raising anything, and Ping still returns Ok — contrary to the claim,
only a code outside the switch (0, or 7 and above) raises a runtime
("unimplemented") error, and an Exception reply raises exactly when the
rethrow_server_exceptions option is set. -/
theorem C3_ping_dispatch :
    pingSend = [OutItem.varu 4, OutItem.flush]
    ∧ (∀ rev ro rest,
        pingRecv rev ro (Tok.varu ServerCodes.Pong :: rest) = RRes.ret true [] rest)
    ∧ (∀ rev ro rest,
        pingRecv rev ro (Tok.varu ServerCodes.EndOfStream :: rest)
          = RRes.ret false [] rest)
    ∧ (∀ rev ro c rest, 7 ≤ c →
        pingRecv rev ro (Tok.varu c :: rest)
          = RRes.thrown (Err.unimplementedPacket c) [] rest)
    ∧ (∀ rev ro rest,
        pingRecv rev ro (Tok.varu 0 :: rest)
          = RRes.thrown (Err.unimplementedPacket 0) [] rest)
    ∧ (∀ rev f fs rest,
        pingRecv rev true (Tok.varu ServerCodes.Exception :: (encodeChain f fs ++ rest))
          = RRes.thrown (Err.serverException (f :: fs)) [] rest)
    ∧ (∀ rev f fs rest,
        pingRecv rev false (Tok.varu ServerCodes.Exception :: (encodeChain f fs ++ rest))
          = RRes.ret false [] rest) := by
  refine ⟨rfl, ?_, ?_, ?_, ?_, ?_, ?_⟩
  · intro rev ro rest
    simpa using receivePacket_pong rev false ro rest
  · intro rev ro rest
    simpa using receivePacket_eos rev false ro rest
  · intro rev ro c rest h
    exact receivePacket_unknown rev false ro c rest h
  · intro rev ro rest
    exact receivePacket_hello_code rev false ro rest
  · intro rev f fs rest
    simpa using receivePacket_exception rev false true f fs rest
  · intro rev f fs rest
    simpa using receivePacket_exception rev false false f fs rest

/-- C3 counterexample.  A reply of code 5 (EndOfStream) to Ping is consumed
silently — the dispatch returns false, nothing is thrown — and Ping returns
Ok, where the claim requires a Protocol error. -/
theorem C3_counterexample :
    pingRecv 54126 false [Tok.varu 5] = RRes.ret false [] [] := by decide

/-- C4, corrected.  OnData is invoked unconditionally after a Data packet
decodes (client.cpp line 379 guards only on the sink being set, not on the
row count), so a zero-row Data packet also triggers exactly one on_data call
when a sink is set; with no sink, no call is made.  This theorem states the
amended form: one on_data per decoded Data packet with a sink, for every row
count including zero. -/
theorem C4_on_data_every_packet :
    (∀ rev ro tbl t1 ov t2 bn t3 cols rows rest,
        receivePacket rev true ro
            (Tok.varu ServerCodes.Data :: (encDataBody tbl t1 ov t2 bn t3 cols rows ++ rest))
          = RRes.ret true [Event.onData ⟨colsNamed cols, rows⟩] rest)
    ∧ (∀ rev ro tbl t1 ov t2 bn t3 cols rows rest,
        receivePacket rev false ro
            (Tok.varu ServerCodes.Data :: (encDataBody tbl t1 ov t2 bn t3 cols rows ++ rest))
          = RRes.ret true [] rest) := by
  constructor <;> intro rev ro tbl t1 ov t2 bn t3 cols rows rest <;>
    simpa using receivePacket_data_enc rev _ ro tbl t1 ov t2 bn t3 cols rows rest

/-- C4 counterexample.  A Data packet whose block has zero rows, received
with an event sink set, triggers an on_data call with the empty 0-row block,
where the claim requires no on_data call. -/
theorem C4_counterexample :
    receivePacket 54126 true false
        [Tok.varu 1, Tok.str "", Tok.varu 1, Tok.fix 0, Tok.varu 2, Tok.fix 0,
         Tok.varu 0, Tok.varu 0, Tok.varu 0]
      = RRes.ret true [Event.onData ⟨[], 0⟩] [] := by decide

/-- C5, confirmed.  After successfully decoding a Data packet,
receive_one_packet returns continue (true), and the receive loop entered by
execute_query runs through any sequence of non-terminal packets (Data,
Progress, ProfileInfo, Pong) until the EndOfStream packet, delivering the
events in arrival order and stopping there. -/
theorem C5_data_nonterminal :
    (∀ rev ro cols rows rest,
        receivePacket rev true ro (encodeNT (NTPacket.data cols rows) ++ rest)
          = RRes.ret true [Event.onData ⟨colsNamed cols, rows⟩] rest)
    ∧ (∀ rev ro ps,
        receiveLoop rev true ro (ps.length + 1)
            (encodeNTs ps ++ [Tok.varu ServerCodes.EndOfStream])
          = (ps.flatMap ntEvents ++ [Event.onFinish], [], none)) := by
  constructor
  · intro rev ro cols rows rest
    simpa [ntEvents] using receivePacket_encodeNT rev ro (NTPacket.data cols rows) rest
  · exact receiveLoop_encodeNTs

/-- C6, code bug.  A Data packet truncated mid-body (here after the table
name, one token into the BlockInfo) makes ReceiveData return false, but the
std::runtime_error built at client.cpp line 232 is never thrown (the throw
keyword is missing), ReceivePacket returns true, and the receive loop then
ends silently when the next read hits end of stream: no Io error surfaces to
the caller, and no event is delivered.  A truncated Progress body likewise
ends the loop with no error. -/
theorem C6_truncation_silent :
    receivePacket 54126 true false [Tok.varu 1, Tok.str "t", Tok.varu 1]
      = RRes.ret true [] []
    ∧ receiveLoop 54126 true false 2 [Tok.varu 1, Tok.str "t", Tok.varu 1]
      = ([], [], none)
    ∧ receiveLoop 54126 true false 1 [Tok.varu 3, Tok.varu 10, Tok.varu 80]
      = ([], [], none) := by decide

/-- C7, confirmed.  A Data packet naming a column whose type descriptor is
not in the closed registry set makes the handler throw (aborting the query),
wherever in the column list the unknown descriptor sits; columns with
recognised descriptors are decoded and appended in wire order, and every
registry descriptor maps back to its column type. -/
theorem C7_column_registry :
    (∀ rev ev tbl t1 ov t2 bn t3 cols rows rest,
        receiveData rev ev (encDataBody tbl t1 ov t2 bn t3 cols rows ++ rest)
          = RRes.ret false (if ev then [Event.onData ⟨colsNamed cols, rows⟩] else []) rest)
    ∧ (∀ rev ev tbl t1 ov t2 bn t3 cols k rows nm bad s,
        CreateColumnByType bad = none →
        receiveData rev ev
            (Tok.str tbl :: Tok.varu t1 :: Tok.fix ov :: Tok.varu t2 :: Tok.fix bn ::
             Tok.varu t3 :: Tok.varu (cols.length + (k + 1)) :: Tok.varu rows ::
             (encCols cols rows ++ Tok.str nm :: Tok.str bad :: s))
          = RRes.thrown (Err.unsupportedColumnType bad) [] s)
    ∧ (∀ b, CreateColumnByType (baseName b) = some (ColType.base b)) :=
  ⟨receiveData_enc, receiveData_unknown, createColumn_baseName⟩

/-- C8, confirmed.  SendQuery emits, in order: the Query code, the query id
as a decimal string, the ClientInfo block only when 54032 ≤ server revision
(query_kind 1, empty initial user and query id, the literal initial address,
iface_type 1, empty os user and hostname, the client name, versions 1 and 1,
revision 54126, with quota_key appended only when 54060 ≤ server revision),
an empty settings string, stage Complete = 2, compression Disable = 0, the
query text, and the empty block encoded as a Data packet (whose own SendData
flushes), followed by a flush. -/
theorem C8_send_query_layout :
    ∀ rev qid q,
      sendQuery rev qid q
        = [OutItem.varu 1, OutItem.str (toString qid)]
          ++ (if 54032 ≤ rev then
                [OutItem.fix 1, OutItem.str "", OutItem.str "",
                 OutItem.str "[::ffff:127.0.0.1]:0", OutItem.fix 1, OutItem.str "",
                 OutItem.str "", OutItem.str "ClickHouse client", OutItem.varu 1,
                 OutItem.varu 1, OutItem.varu 54126]
                ++ (if 54060 ≤ rev then [OutItem.str ""] else [])
              else [])
          ++ [OutItem.str "", OutItem.varu 2, OutItem.varu 0, OutItem.str q]
          ++ ([OutItem.varu 2]
              ++ (if 50264 ≤ rev then [OutItem.str ""] else [])
              ++ (if 51903 ≤ rev then
                    [OutItem.varu 1, OutItem.fix 0, OutItem.varu 2, OutItem.fix 0,
                     OutItem.varu 0]
                  else [])
              ++ [OutItem.varu 0, OutItem.varu 0, OutItem.flush])
          ++ [OutItem.flush] :=
  sendQuery_eq

/-- C9, confirmed.  A received Exception packet decodes as a chain of frames
(i32 code, name, display text, stack trace, u8 has_nested) terminated by
has_nested = 0; the chain is delivered to the sink exactly when a sink is
set, and a ServerException carrying the chain is thrown iff the rethrow
argument or the rethrow_exceptions option is set — in the packet dispatch
that means iff the option is set, while in the handshake an Exception reply
always throws. -/
theorem C9_exception_chain :
    (∀ ev ra ro f fs rest,
        receiveException ev ra ro (encodeChain f fs ++ rest)
          = if ra || ro then
              RRes.thrown (Err.serverException (f :: fs))
                (if ev then [Event.onServerException (f :: fs)] else []) rest
            else
              RRes.ret true (if ev then [Event.onServerException (f :: fs)] else []) rest)
    ∧ (∀ rev ro f fs rest,
        receivePacket rev true ro
            (Tok.varu ServerCodes.Exception :: (encodeChain f fs ++ rest))
          = if ro then
              RRes.thrown (Err.serverException (f :: fs))
                [Event.onServerException (f :: fs)] rest
            else RRes.ret false [Event.onServerException (f :: fs)] rest)
    ∧ (∀ ro f fs rest,
        receiveHello ro (Tok.varu ServerCodes.Exception :: (encodeChain f fs ++ rest))
          = HelloRes.thrown (Err.serverException (f :: fs)) rest) := by
  refine ⟨receiveException_enc, ?_, receiveHello_exception⟩
  intro rev ro f fs rest
  simpa using receivePacket_exception rev true ro f fs rest

/-- C10, confirmed.  During Insert no event sink is installed (only
ExecuteQuery sets events_, through a scoped guard), so across both receive
phases of Insert — awaiting the schema Data packet and waiting for
EndOfStream — no sink callback is ever invoked, whatever the server sends
and whether or not rethrow is set. -/
theorem C10_insert_no_sink :
    ∀ rev ro fuel1 fuel2 s, (insertRecv rev ro fuel1 fuel2 s).1 = [] := by
  intro rev ro f1 f2 s
  unfold insertRecv
  have h1 := insertAwaitData_noSink rev ro f1 0 s
  have h2 := receiveLoop_noSink rev ro f2 (insertAwaitData rev ro f1 0 s).2.1
  simp only []
  split <;> simp_all

end RClickhouse
